import Mathlib

/-!
Verification of the peal operator/mutation layer.

The definitions below are a shallow embedding of
`src/peal/operators/operator.py` and `src/peal/operators/mutation.py`.
Python floats are embedded as rationals, numpy arrays as lists, and the
process-wide numpy random stream as an explicit `Rng` record of draw
streams with consumption counters.  Python exceptions become `Except`
values.  Supporting classes that the repository imports but whose
sources are not provided (`Population`, `Community`, `Individual`,
`IterationType`, `SingleIteration`, `GenePool`) are modelled from the
specification; each such definition says so in its doc comment.
-/

namespace Peal

/-- Python exception values raised by the embedded code.  The spec's
abstract `InvalidContainerKind` / `TypeMismatch` taxonomy maps onto
`TypeError` values with the corresponding message. -/
inductive PError
  | typeError (msg : String)
  | indexError
  | zeroDivisionError
  | valueError
  deriving DecidableEq, Repr

/-- Modelled from the spec: an Individual is an ordered sequence of
genes plus an optional ordered sequence of hidden genes (self-adaptive
strategy parameters, spec section 3).  The cached fitness value plays no
role in the claims under verification and is omitted.  The gene type is
a parameter: `Bool` for bit genomes, `Int` for integer genomes and `ℚ`
for real genomes. -/
structure Individual (G : Type) where
  genes : List G
  hiddenGenes : List ℚ
  deriving DecidableEq

/-- Modelled from the spec: copying an individual duplicates its gene
data, so later in-place writes to the copy never reach the original
(spec section 3, copy-on-write semantics).  In the value semantics of
the embedding this is the identity on the individual's data. -/
def Individual.copy {G : Type} (ind : Individual G) : Individual G := ind

/-- Modelled from the spec: a Population is an ordered,
insertion-order-significant collection of Individuals (spec section 3).
`peal.population` is not among the provided sources. -/
structure Population (G : Type) where
  individuals : List (Individual G)
  deriving DecidableEq

/-- Modelled from the spec: `Population()` creates an empty population. -/
def Population.empty (G : Type) : Population G := Population.mk []

/-- Modelled from the spec: `integrate` appends another Population's
individuals, preserving order (spec section 3). -/
def Population.integrate {G : Type} (p q : Population G) : Population G :=
  Population.mk (p.individuals ++ q.individuals)

/-- Modelled from the spec: a Community is an ordered collection of
Populations, supporting the same integrate operation one level up
(spec section 3).  `peal.community` is not among the provided sources. -/
structure Community (G : Type) where
  populations : List (Population G)
  deriving DecidableEq

/-- Modelled from the spec: `Community()` creates an empty community. -/
def Community.empty (G : Type) : Community G := Community.mk []

/-- Modelled from the spec: `integrate` appends another Community's
populations, preserving order. -/
def Community.integrate {G : Type} (c d : Community G) : Community G :=
  Community.mk (c.populations ++ d.populations)

/-- Modelled from the spec: a GenePool is an external collaborator
(spec section 2); none of the operator code under verification ever
reads it (the `pool` argument is only passed through), so it is opaque
here. -/
structure GenePool where
  token : Nat
  deriving DecidableEq

/-- A diagnostic emitted through Python's `warnings.warn`; the embedding
collects the warning messages in a list instead of a global channel. -/
abbrev Warning := String

/-- The argument of `Operator.process`: a Python object that is either a
`Population`, a `Community`, or anything else (`other` carries a
description of the foreign object). -/
inductive Container (G : Type)
  | pop (p : Population G)
  | comm (c : Community G)
  | other (desc : String)

/-- The process-wide numpy random state, embedded as explicit draw
streams with consumption counters:
`floats` is the `np.random.random_sample` stream (uniform on [0,1)),
`randints lo hiEx` the `np.random.randint(lo, hiEx)` stream,
`normals mu sigma` the `np.random.normal(mu, sigma)` stream, and
`choices` the `np.random.choice` of a two-element list (true picks the
first element).  Counters `fi`, `ri`, `ni`, `ci` give the next unread
index of each stream. -/
structure Rng where
  floats : Nat → ℚ
  randints : Int → Int → Nat → Int
  normals : ℚ → ℚ → Nat → ℚ
  choices : Nat → Bool
  fi : Nat
  ri : Nat
  ni : Nat
  ci : Nat

/-- Draw one uniform sample from [0,1) (`np.random.random_sample()`). -/
def Rng.nextFloat (r : Rng) : ℚ × Rng :=
  (r.floats r.fi, { r with fi := r.fi + 1 })

/-- Draw one integer from [lo, hiEx) (`np.random.randint(lo, hiEx)`). -/
def Rng.nextRandint (r : Rng) (lo hiEx : Int) : Int × Rng :=
  (r.randints lo hiEx r.ri, { r with ri := r.ri + 1 })

/-- Draw one normal sample (`np.random.normal(mu, sigma)`). -/
def Rng.nextNormal (r : Rng) (mu sigma : ℚ) : ℚ × Rng :=
  (r.normals mu sigma r.ni, { r with ni := r.ni + 1 })

/-- Draw one choice between the two elements of a two-element list
(`np.random.choice([x, y])`); `true` selects the first element. -/
def Rng.nextChoice (r : Rng) : Bool × Rng :=
  (r.choices r.ci, { r with ci := r.ci + 1 })

/-- Draw a batch of `n` uniform samples
(`np.random.random_sample(size=n)`). -/
def takeFloats : Nat → Rng → List ℚ × Rng
  | 0, rng => ([], rng)
  | n + 1, rng =>
      let pr := rng.nextFloat
      let rest := takeFloats n pr.2
      (pr.1 :: rest.1, rest.2)

/-- Draw a batch of `n` integers from [lo, hiEx)
(`np.random.randint(lo, hiEx, size=n)`). -/
def takeRandints (lo hiEx : Int) : Nat → Rng → List Int × Rng
  | 0, rng => ([], rng)
  | n + 1, rng =>
      let pr := rng.nextRandint lo hiEx
      let rest := takeRandints lo hiEx n pr.2
      (pr.1 :: rest.1, rest.2)

/-- Draw a batch of `n` normal samples
(`np.random.normal(mu, sigma, size=n)`). -/
def takeNormals (mu sigma : ℚ) : Nat → Rng → List ℚ × Rng
  | 0, rng => ([], rng)
  | n + 1, rng =>
      let pr := rng.nextNormal mu sigma
      let rest := takeNormals mu sigma n pr.2
      (pr.1 :: rest.1, rest.2)

/-- The Bernoulli-hit mask `np.random.random_sample(n) <= prob`, one
Boolean per drawn sample. -/
def hitsMask (prob : ℚ) (us : List ℚ) : List Bool :=
  us.map (fun u => if u ≤ prob then true else false)

/-- The vectorized numpy assignment `genes[hits] = vs`: positions whose
mask entry is true receive the next unused element of `vs` (numpy's
`np.where` lists hit indices in increasing order). -/
def assignHits {α : Type} : List α → List Bool → List α → List α
  | [], _, _ => []
  | gs, [], _ => gs
  | g :: gs, b :: ms, vs =>
      if b then
        match vs with
        | [] => g :: assignHits gs ms []
        | v :: vr => v :: assignHits gs ms vr
      else g :: assignHits gs ms vs

/-- The vectorized numpy assignment `genes[hits] += vs`: positions whose
mask entry is true have the next unused element of `vs` added to them. -/
def addHits : List ℚ → List Bool → List ℚ → List ℚ
  | [], _, _ => []
  | gs, [], _ => gs
  | g :: gs, b :: ms, vs =>
      if b then
        match vs with
        | [] => g :: addHits gs ms []
        | v :: vr => (g + v) :: addHits gs ms vr
      else g :: addHits gs ms vs

/-- Modelled from the spec: an IterationType splits a Population or a
Community into successive batches for an Operator to consume, without
mutating the input (spec sections 2 and 3).  `peal.operators.iteration`
is not among the provided sources. -/
structure IterationType (G : Type) where
  splitPop : Population G → List (Population G)
  splitComm : Community G → List (Community G)

/-- Modelled from the spec: `SingleIteration` yields one batch per
individual in a Population (each batch a single-individual Population),
in original order; for a Community, one batch per contained Population
(spec section 4.2). -/
def SingleIteration (G : Type) : IterationType G :=
  { splitPop := fun p => p.individuals.map (fun i => Population.mk [i])
    splitComm := fun c => c.populations.map (fun q => Community.mk [q]) }

/-- The result of one `_process_population` hook call: `post` is the
state of the caller's batch after the call (tracking in-place effects on
it), `out` the returned Population, `warns` the warnings emitted during
the call, and `rng` the random state after the call. -/
structure PopStep (G : Type) where
  post : Population G
  out : Population G
  warns : List Warning
  rng : Rng

/-- The `_process_population` method that an Operator instance carries.
`default` is the base-class body from `operator.py` (whose signature
`(self, container, /, *, pool=None)` accepts the `pool` keyword);
`noPool` is an overriding body whose signature — like all four mutation
operators in `mutation.py` — has no `pool` parameter. -/
inductive PopHook (G : Type)
  | default
  | noPool (f : Population G → Rng → Except PError (PopStep G))

/-- An Operator instance: its `_iter_type` attribute, its class name
(Python's `type(self).__name__`, used in warning messages) and its
`_process_population` body.  No class in the provided sources overrides
`_process_community`, so every operator uses the base-class community
hook. -/
structure Operator (G : Type) where
  iterType : IterationType G
  name : String
  popHook : PopHook G

/-- `Operator.__init__` with no argument: `_iter_type` defaults to
`SingleIteration()`; the base class leaves both hooks at their default
bodies. -/
def Operator.base (G : Type) (name : String) : Operator G :=
  { iterType := SingleIteration G, name := name, popHook := PopHook.default }

/-- The message of the base `_process_population` warning, reproducing
the adjacent-literal concatenation of `operator.py` (which omits the
space between "a" and "Population"). -/
def warnPopMsg (name : String) : Warning :=
  "Operator " ++ name ++ " has been called on a" ++
    "Population without specifying an operation for this " ++
    "type of container; it will not be processed"

/-- The message of the base `_process_community` warning. -/
def warnCommMsg (name : String) : Warning :=
  "Operator " ++ name ++ " has been called on a" ++
    "Community without specifying an operation for this " ++
    "type of container; it will not be processed"

/-- The message of the `TypeError` Python raises when
`Operator.process` passes `pool=pool` to an overriding
`_process_population` whose signature has no `pool` parameter. -/
def unexpectedKwargMsg : String :=
  "_process_population() got an unexpected keyword argument pool"

/-- The message of the `TypeError` raised by `Operator.process` on a
container that is neither a Population nor a Community. -/
def onlyContainersMsg : String :=
  "Operator can only process populations or communities"

/-- The call `self._process_population(batch, pool=pool)` from
`Operator.process`.  The base body warns and returns the batch
unchanged; a `noPool` body raises `TypeError` before its body runs,
because the call passes the `pool` keyword argument that the overriding
signature does not accept. -/
def Operator.callPopHookWithPool {G : Type} (op : Operator G)
    (batch : Population G) (pool : Option GenePool) (rng : Rng) :
    Except PError (PopStep G) :=
  match op.popHook, pool with
  | PopHook.default, _ =>
      Except.ok
        { post := batch, out := batch, warns := [warnPopMsg op.name], rng := rng }
  | PopHook.noPool _, _ => Except.error (PError.typeError unexpectedKwargMsg)

/-- The Population loop of `Operator.process`: start from `Population()`
and integrate each hook result in batch order, accumulating warnings and
threading the random state; a raised exception aborts the loop. -/
def processPopLoop {G : Type} (op : Operator G) (pool : Option GenePool) :
    List (Population G) → Population G → List Warning → Rng →
    Except PError (Population G × List Warning × Rng)
  | [], acc, ws, rng => Except.ok (acc, ws, rng)
  | b :: bs, acc, ws, rng =>
      match op.callPopHookWithPool b pool rng with
      | Except.error e => Except.error e
      | Except.ok step =>
          processPopLoop op pool bs (acc.integrate step.out)
            (ws ++ step.warns) step.rng

/-- The Community loop of `Operator.process`.  Every operator in the
provided sources uses the base `_process_community` (whose signature
accepts `pool`), so each batch is returned unchanged with one warning;
no exception and no random draw occurs. -/
def processCommLoop {G : Type} (op : Operator G) :
    List (Community G) → Community G → List Warning → Rng →
    Community G × List Warning × Rng
  | [], acc, ws, rng => (acc, ws, rng)
  | b :: bs, acc, ws, rng =>
      processCommLoop op bs (acc.integrate b) (ws ++ [warnCommMsg op.name]) rng

/-- `Operator.process` from `operator.py`: dispatch on the container
kind, iterate the operator's IterationType over it, feed each batch to
the matching hook and integrate the results; any other input raises
`TypeError`.  The embedding returns the produced container together with
the emitted warnings and the final random state. -/
def Operator.process {G : Type} (op : Operator G) (container : Container G)
    (pool : Option GenePool) (rng : Rng) :
    Except PError (Container G × List Warning × Rng) :=
  match container with
  | Container.pop p =>
      match processPopLoop op pool (op.iterType.splitPop p)
          (Population.empty G) [] rng with
      | Except.error e => Except.error e
      | Except.ok (q, ws, r) => Except.ok (Container.pop q, ws, r)
  | Container.comm c =>
      match processCommLoop op (op.iterType.splitComm c)
          (Community.empty G) [] rng with
      | (d, ws, r) => Except.ok (Container.comm d, ws, r)
  | Container.other _ => Except.error (PError.typeError onlyContainersMsg)

/-- The argument of the `iter_type` setter: a Python value that either
is an `IterationType` instance or is not (`other` carries a description
of the foreign value, used in the error message). -/
inductive IterArg (G : Type)
  | ofIter (it : IterationType G)
  | other (desc : String)

/-- The `iter_type` property setter from `operator.py`: values failing
the `isinstance(iter_type, IterationType)` check raise `TypeError`;
instances are stored in `_iter_type`. -/
def Operator.setIterType {G : Type} (op : Operator G) (v : IterArg G) :
    Except PError (Operator G) :=
  match v with
  | IterArg.ofIter it => Except.ok { op with iterType := it }
  | IterArg.other desc =>
      Except.error (PError.typeError ("Expected IterationType, got " ++ desc))

/-- One element of `OperatorChain._operators`: either a single Operator
or a Python list of alternative Operators. -/
inductive ChainStep (G : Type)
  | single (op : Operator G)
  | choice (ops : List (Operator G))

/-- `OperatorChain.__init__` stores the given steps in order. -/
structure OperatorChain (G : Type) where
  operators : List (ChainStep G)

/-- Index selection for a random-choice chain step:
`operator[np.random.randint(len(operator))]`, with the drawn value
reduced modulo the length so the lookup is total (under the randint
contract the draw already lies in range and the reduction is the
identity). -/
def chooseOp {G : Type} (o : Operator G) (os : List (Operator G)) (v : Int) :
    Operator G :=
  (o :: os).getD (v.toNat % (os.length + 1)) o

/-- The loop of `OperatorChain.process`: apply each step in order,
feeding each step's output container to the next step; a list step first
draws `np.random.randint(len(operator))` to pick one alternative
(an empty list makes `randint(0)` raise `ValueError`). -/
def chainGo {G : Type} (pool : Option GenePool) :
    List (ChainStep G) → Container G → List Warning → Rng →
    Except PError (Container G × List Warning × Rng)
  | [], c, ws, rng => Except.ok (c, ws, rng)
  | ChainStep.single op :: rest, c, ws, rng =>
      match op.process c pool rng with
      | Except.error e => Except.error e
      | Except.ok (c2, ws2, r2) => chainGo pool rest c2 (ws ++ ws2) r2
  | ChainStep.choice ops :: rest, c, ws, rng =>
      match ops with
      | [] => Except.error PError.valueError
      | o :: os =>
          match rng.nextRandint 0 (Int.ofNat (os.length + 1)) with
          | (v, rng1) =>
              match (chooseOp o os v).process c pool rng1 with
              | Except.error e => Except.error e
              | Except.ok (c2, ws2, r2) => chainGo pool rest c2 (ws ++ ws2) r2

/-- `OperatorChain.process` from `operator.py`. -/
def OperatorChain.process {G : Type} (ch : OperatorChain G)
    (container : Container G) (pool : Option GenePool) (rng : Rng) :
    Except PError (Container G × List Warning × Rng) :=
  chainGo pool ch.operators container [] rng

/-- Modelled from the spec's words, for comparison with
`OperatorChain.process`: the nested application
`sn.process(...s2.process(s1.process(container))...)`, threading the
random state and accumulating warnings left to right and propagating a
raised exception. -/
def foldProcess {G : Type} (pool : Option GenePool) :
    List (Operator G) → Except PError (Container G × List Warning × Rng) →
    Except PError (Container G × List Warning × Rng)
  | [], acc => acc
  | op :: rest, acc =>
      foldProcess pool rest
        (match acc with
         | Except.error e => Except.error e
         | Except.ok (c, ws, rng) =>
             match op.process c pool rng with
             | Except.error e => Except.error e
             | Except.ok (c2, ws2, r2) => Except.ok (c2, ws ++ ws2, r2))

/-- `BitFlip.__init__` stores `_prob` (no validation is performed in
`mutation.py`). -/
structure BitFlip where
  prob : ℚ
  deriving DecidableEq

/-- `BitFlip(prob)` as a constructor call: the body only assigns the
attribute, so construction always succeeds.  The `Except` result type
makes the absence of a construction-time failure path statable. -/
def BitFlip.init (prob : ℚ) : Except PError BitFlip :=
  Except.ok (BitFlip.mk prob)

/-- The loop of `BitFlip._process_population` over the copied
individual's genes: one `np.random.random_sample()` draw per gene,
flipping the gene when the draw is `<=` the stored probability. -/
def bitFlipGenes (prob : ℚ) : List Bool → Rng → List Bool × Rng
  | [], rng => ([], rng)
  | g :: gs, rng =>
      let pr := rng.nextFloat
      let g2 := if pr.1 ≤ prob then !g else g
      let rest := bitFlipGenes prob gs pr.2
      (g2 :: rest.1, rest.2)

/-- `BitFlip._process_population` from `mutation.py`: copy
`container[0]` (an empty container makes the subscript raise
`IndexError`), flip each gene of the copy with probability `prob`, and
return a new Population holding the copy; the caller's container is
untouched. -/
def BitFlip.processPopulation (b : BitFlip) (container : Population Bool)
    (rng : Rng) : Except PError (PopStep Bool) :=
  match container.individuals with
  | [] => Except.error PError.indexError
  | i0 :: _ =>
      let ind := Individual.copy i0
      let pr := bitFlipGenes b.prob ind.genes rng
      Except.ok
        { post := container
          out := Population.mk [{ ind with genes := pr.1 }]
          warns := []
          rng := pr.2 }

/-- The `BitFlip` instance as an Operator value: `super().__init__()`
leaves `_iter_type` at `SingleIteration()`, and the class overrides
`_process_population` with a body whose signature has no `pool`
parameter. -/
def BitFlip.toOperator (b : BitFlip) : Operator Bool :=
  { iterType := SingleIteration Bool
    name := "BitFlip"
    popHook := PopHook.noPool b.processPopulation }

/-- `UniformInt.__init__` stores `_prob`, `_lowest` and `_highest`
(no validation is performed in `mutation.py`). -/
structure UniformInt where
  prob : ℚ
  lowest : Int
  highest : Int
  deriving DecidableEq

/-- `UniformInt(prob, lowest, highest)` as a constructor call: the body
only assigns attributes, so construction always succeeds. -/
def UniformInt.init (prob : ℚ) (lowest highest : Int) :
    Except PError UniformInt :=
  Except.ok (UniformInt.mk prob lowest highest)

/-- The gene update of `UniformInt._process_population`: draw one
uniform sample per gene, form the hit mask `sample <= prob`, draw
`np.random.randint(lowest, highest+1, size=len(hits))` and assign those
values to the hit positions. -/
def uniformIntGenes (prob : ℚ) (lowest highest : Int) (gs : List Int)
    (rng : Rng) : List Int × Rng :=
  let pr := takeFloats gs.length rng
  let mask := hitsMask prob pr.1
  let pr2 := takeRandints lowest (highest + 1) (mask.count true) pr.2
  (assignHits gs mask pr2.1, pr2.2)

/-- `UniformInt._process_population` from `mutation.py`: copy
`container[0]`, overwrite each hit gene with a fresh
`randint(lowest, highest+1)` draw, and return a new Population holding
the copy. -/
def UniformInt.processPopulation (u : UniformInt)
    (container : Population Int) (rng : Rng) : Except PError (PopStep Int) :=
  match container.individuals with
  | [] => Except.error PError.indexError
  | i0 :: _ =>
      let ind := Individual.copy i0
      let pr := uniformIntGenes u.prob u.lowest u.highest ind.genes rng
      Except.ok
        { post := container
          out := Population.mk [{ ind with genes := pr.1 }]
          warns := []
          rng := pr.2 }

/-- The `UniformInt` instance as an Operator value. -/
def UniformInt.toOperator (u : UniformInt) : Operator Int :=
  { iterType := SingleIteration Int
    name := "UniformInt"
    popHook := PopHook.noPool u.processPopulation }

/-- `UniformFloat.__init__` stores `_prob`, `_lowest` and `_highest`
(no validation is performed in `mutation.py`). -/
structure UniformFloat where
  prob : ℚ
  lowest : ℚ
  highest : ℚ
  deriving DecidableEq

/-- `UniformFloat(prob, lowest, highest)` as a constructor call: the
body only assigns attributes, so construction always succeeds. -/
def UniformFloat.init (prob lowest highest : ℚ) :
    Except PError UniformFloat :=
  Except.ok (UniformFloat.mk prob lowest highest)

/-- The gene update of `UniformFloat._process_population`: draw one
uniform sample per gene, form the hit mask, draw `len(hits)` further
uniform samples and assign `(highest-lowest)*u + lowest` to the hit
positions. -/
def uniformFloatGenes (prob lowest highest : ℚ) (gs : List ℚ)
    (rng : Rng) : List ℚ × Rng :=
  let pr := takeFloats gs.length rng
  let mask := hitsMask prob pr.1
  let pr2 := takeFloats (mask.count true) pr.2
  (assignHits gs mask (pr2.1.map (fun u => (highest - lowest) * u + lowest)),
   pr2.2)

/-- `UniformFloat._process_population` from `mutation.py`: copy
`container[0]`, overwrite each hit gene with a uniform draw scaled into
`[lowest, highest)`, and return a new Population holding the copy. -/
def UniformFloat.processPopulation (u : UniformFloat)
    (container : Population ℚ) (rng : Rng) : Except PError (PopStep ℚ) :=
  match container.individuals with
  | [] => Except.error PError.indexError
  | i0 :: _ =>
      let ind := Individual.copy i0
      let pr := uniformFloatGenes u.prob u.lowest u.highest ind.genes rng
      Except.ok
        { post := container
          out := Population.mk [{ ind with genes := pr.1 }]
          warns := []
          rng := pr.2 }

/-- The `UniformFloat` instance as an Operator value. -/
def UniformFloat.toOperator (u : UniformFloat) : Operator ℚ :=
  { iterType := SingleIteration ℚ
    name := "UniformFloat"
    popHook := PopHook.noPool u.processPopulation }

/-- `NormalDist.__init__` stores `_prob`, `_mu`, `_sigma` and `_alpha`
(no validation is performed in `mutation.py`). -/
structure NormalDist where
  prob : ℚ
  mu : ℚ
  sigma : ℚ
  alpha : Option ℚ
  deriving DecidableEq

/-- `NormalDist(prob, mu, sigma, alpha)` as a constructor call: the
body only assigns attributes, so construction always succeeds. -/
def NormalDist.init (prob mu sigma : ℚ) (alpha : Option ℚ) :
    Except PError NormalDist :=
  Except.ok (NormalDist.mk prob mu sigma alpha)

/-- The gene update of `NormalDist._process_population`: draw one
uniform sample per gene, form the hit mask, draw `len(hits)` samples
from `np.random.normal(mu, sigma)` and add them to the hit positions. -/
def normalDistGenes (prob mu sigma : ℚ) (gs : List ℚ) (rng : Rng) :
    List ℚ × Rng :=
  let pr := takeFloats gs.length rng
  let mask := hitsMask prob pr.1
  let pr2 := takeNormals mu sigma (mask.count true) pr.2
  (addHits gs mask pr2.1, pr2.2)

/-- The body of `NormalDist._process_population` applied to one
individual (the copy of `container[0]`): with `alpha` unset the noise
uses the configured `sigma` and hidden genes are untouched; with `alpha`
set, `sigma` is read from `hidden_genes[0]` (raising `IndexError` when
there is no hidden gene) and `hidden_genes[0]` is then multiplied by
`np.random.choice([alpha, 1/alpha])` (a zero `alpha` makes `1/alpha`
raise `ZeroDivisionError`); the noise added to the hit genes uses the
step size read before the update. -/
def normalDistMutate (p : NormalDist) (ind : Individual ℚ) (rng : Rng) :
    Except PError (Individual ℚ × Rng) :=
  match p.alpha with
  | none =>
      let pr := normalDistGenes p.prob p.mu p.sigma ind.genes rng
      Except.ok ({ ind with genes := pr.1 }, pr.2)
  | some a =>
      match ind.hiddenGenes with
      | [] => Except.error PError.indexError
      | s0 :: rest =>
          if a = 0 then Except.error PError.zeroDivisionError
          else
            let ch := rng.nextChoice
            let factor := if ch.1 then a else 1 / a
            let pr := normalDistGenes p.prob p.mu s0 ind.genes ch.2
            Except.ok
              ({ genes := pr.1, hiddenGenes := s0 * factor :: rest }, pr.2)

/-- `NormalDist._process_population` from `mutation.py`: copy
`container[0]`, mutate the copy as in `normalDistMutate`, and return a
new Population holding the copy. -/
def NormalDist.processPopulation (p : NormalDist)
    (container : Population ℚ) (rng : Rng) : Except PError (PopStep ℚ) :=
  match container.individuals with
  | [] => Except.error PError.indexError
  | i0 :: _ =>
      match normalDistMutate p (Individual.copy i0) rng with
      | Except.error e => Except.error e
      | Except.ok (ind, rng1) =>
          Except.ok
            { post := container
              out := Population.mk [ind]
              warns := []
              rng := rng1 }

/-- The `NormalDist` instance as an Operator value. -/
def NormalDist.toOperator (p : NormalDist) : Operator ℚ :=
  { iterType := SingleIteration ℚ
    name := "NormalDist"
    popHook := PopHook.noPool p.processPopulation }

/-- `N` successive applications of the `NormalDist` mutation step to an
individual, threading the random state (the individual produced by each
call is the input of the next). -/
def normalDistIterate (p : NormalDist) :
    Nat → Individual ℚ → Rng → Except PError (Individual ℚ × Rng)
  | 0, ind, rng => Except.ok (ind, rng)
  | n + 1, ind, rng =>
      match normalDistMutate p ind rng with
      | Except.error e => Except.error e
      | Except.ok (i2, r2) => normalDistIterate p n i2 r2

/-- A concrete random state used to instantiate theorems: every uniform
draw is 1/2, every randint draw is its lower bound, every normal draw is
0, every choice picks the first element. -/
def rngHalf : Rng :=
  { floats := fun _ => 1 / 2
    randints := fun lo _ _ => lo
    normals := fun _ _ _ => 0
    choices := fun _ => true
    fi := 0, ri := 0, ni := 0, ci := 0 }

/-- A concrete random state whose uniform draws are all exactly 0, the
lowest value `np.random.random_sample` can return. -/
def rngZero : Rng :=
  { rngHalf with floats := fun _ => 0 }

/-- The Population loop of `Operator.process` for an operator whose
population hook is the base-class default: each singleton batch comes
back unchanged with one warning, so the loop appends the individuals in
order, emits one warning per batch and leaves the random state alone. -/
lemma processPopLoop_base {G : Type} (nm : String) (pool : Option GenePool) :
    ∀ (xs : List (Individual G)) (acc : Population G) (ws : List Warning)
      (rng : Rng),
      processPopLoop (Operator.base G nm) pool
          (xs.map fun i => Population.mk [i]) acc ws rng =
        Except.ok (Population.mk (acc.individuals ++ xs),
          ws ++ xs.map (fun _ => warnPopMsg nm), rng) := by
  intro xs
  induction xs with
  | nil => intro acc ws rng; simp [processPopLoop]
  | cons i xs ih =>
      intro acc ws rng
      have hcall : (Operator.base G nm).callPopHookWithPool
          (Population.mk [i]) pool rng =
          Except.ok
            { post := Population.mk [i]
              out := Population.mk [i]
              warns := [warnPopMsg nm]
              rng := rng } := rfl
      simp only [List.map_cons, processPopLoop, hcall]
      rw [show acc.integrate (Population.mk [i]) =
        Population.mk (acc.individuals ++ [i]) from rfl]
      rw [ih]
      simp [List.append_assoc]

/-- The Community loop of `Operator.process` (every operator uses the
base community hook): each singleton batch comes back unchanged with one
warning. -/
lemma processCommLoop_base {G : Type} (op : Operator G) :
    ∀ (xs : List (Population G)) (acc : Community G) (ws : List Warning)
      (rng : Rng),
      processCommLoop op (xs.map fun q => Community.mk [q]) acc ws rng =
        (Community.mk (acc.populations ++ xs),
          ws ++ xs.map (fun _ => warnCommMsg op.name), rng) := by
  intro xs
  induction xs with
  | nil => intro acc ws rng; simp [processCommLoop]
  | cons q xs ih =>
      intro acc ws rng
      simp only [List.map_cons, processCommLoop, Community.integrate, ih,
        List.append_assoc, List.cons_append, List.nil_append,
        List.singleton_append]

/-- `foldProcess` propagates a raised exception through the remaining
steps. -/
lemma foldProcess_error {G : Type} (pool : Option GenePool) :
    ∀ (ops : List (Operator G)) (e : PError),
      foldProcess pool ops (Except.error e) = Except.error e := by
  intro ops
  induction ops with
  | nil => intro e; rfl
  | cons op rest ih => intro e; simp [foldProcess, ih]

/-- The chain loop on a list of single-operator steps is the nested
application of the operators' `process` methods. -/
lemma chainGo_singles {G : Type} (pool : Option GenePool) :
    ∀ (ops : List (Operator G)) (c : Container G) (ws : List Warning)
      (rng : Rng),
      chainGo pool (ops.map ChainStep.single) c ws rng =
        foldProcess pool ops (Except.ok (c, ws, rng)) := by
  intro ops
  induction ops with
  | nil => intro c ws rng; rfl
  | cons op rest ih =>
      intro c ws rng
      simp only [List.map_cons, chainGo, foldProcess]
      cases h : op.process c pool rng with
      | error e => simp [foldProcess_error]
      | ok triple =>
          match triple with
          | (c2, ws2, r2) => simp [ih]

/-- C1: for every input that is neither a Population nor a Community,
`Operator.process` raises the container-kind `TypeError`
("Operator can only process populations or communities") and returns no
container. -/
theorem claim1_process_rejects_foreign_container {G : Type}
    (op : Operator G) (desc : String) (pool : Option GenePool) (rng : Rng) :
    op.process (Container.other desc) pool rng =
      Except.error (PError.typeError onlyContainersMsg) := rfl

/-- C2 counterexample: on the empty Population, the base Operator's
`process` returns the container unchanged but emits no warning at all
(the iteration yields no batch), so "emits a non-fatal warning
diagnostic" fails for this container. -/
theorem claim2_counterexample :
    (Operator.base Bool "Operator").process
        (Container.pop (Population.mk [])) none rngHalf =
      Except.ok (Container.pop (Population.mk []), ([] : List Warning),
        rngHalf) := rfl

/-- C2 (amended): for every Population or Community, `process` on a base
Operator returns a container of the same kind holding the same
individuals (or populations) in the same order, raises nothing, and
emits one non-fatal warning per batch — one per individual or contained
population, hence at least one whenever the container is non-empty and
none when it is empty. -/
theorem claim2_base_operator_identity {G : Type} (nm : String)
    (p : Population G) (c : Community G) (pool : Option GenePool)
    (rng : Rng) :
    (Operator.base G nm).process (Container.pop p) pool rng =
      Except.ok (Container.pop p,
        p.individuals.map (fun _ => warnPopMsg nm), rng)
    ∧ (Operator.base G nm).process (Container.comm c) pool rng =
      Except.ok (Container.comm c,
        c.populations.map (fun _ => warnCommMsg nm), rng) := by
  constructor
  · show (match processPopLoop (Operator.base G nm) pool _ _ _ _ with
      | Except.error e => Except.error e
      | Except.ok (q, ws, r) => Except.ok (Container.pop q, ws, r)) = _
    rw [show (Operator.base G nm).iterType.splitPop p =
        p.individuals.map (fun i => Population.mk [i]) from rfl]
    rw [processPopLoop_base]
    rfl
  · show (match processCommLoop (Operator.base G nm) _ _ _ _ with
      | (d, ws, r) => Except.ok (Container.comm d, ws, r)) = _
    rw [show (Operator.base G nm).iterType.splitComm c =
        c.populations.map (fun q => Community.mk [q]) from rfl]
    rw [processCommLoop_base]
    rfl

/-- C3: an OperatorChain whose steps are all single Operators applies
them in the given order, feeding each step's output container (together
with the threaded random state) to the next step, and returns the final
result — the nested application `sn.process(...s1.process(container))`. -/
theorem claim3_chain_is_composition {G : Type} (ops : List (Operator G))
    (c : Container G) (pool : Option GenePool) (rng : Rng) :
    (OperatorChain.mk (ops.map ChainStep.single)).process c pool rng =
      foldProcess pool ops (Except.ok (c, [], rng)) :=
  chainGo_singles pool ops c [] rng

/-- An operator whose `_process_population` override has no `pool`
parameter and whose iteration is `SingleIteration` raises the
keyword-argument `TypeError` from `process` on every non-empty
Population: the first batch call already fails. -/
lemma noPool_process_error {G : Type} (op : Operator G)
    (f : Population G → Rng → Except PError (PopStep G))
    (hh : op.popHook = PopHook.noPool f)
    (hit : op.iterType = SingleIteration G)
    (p : Population G) (hp : p.individuals ≠ [])
    (pool : Option GenePool) (rng : Rng) :
    op.process (Container.pop p) pool rng =
      Except.error (PError.typeError unexpectedKwargMsg) := by
  match hne : p.individuals with
  | [] => exact absurd hne hp
  | i :: is =>
      show (match processPopLoop op pool (op.iterType.splitPop p)
          (Population.empty G) [] rng with
        | Except.error e => Except.error e
        | Except.ok (q, ws, r) => Except.ok (Container.pop q, ws, r)) = _
      rw [hit]
      rw [show (SingleIteration G).splitPop p =
        p.individuals.map (fun i => Population.mk [i]) from rfl]
      rw [hne]
      simp only [List.map_cons, processPopLoop,
        Operator.callPopHookWithPool, hh]

/-- C4: for every non-empty Population, the public `process` of each of
the four mutation operators raises the `TypeError` caused by passing
`pool=pool` to a `_process_population` override defined without a
`pool` parameter, regardless of the random stream; the mutation body is
reachable only by calling `_process_population` directly (shown here for
`BitFlip` on a single-individual batch). -/
theorem claim4_mutation_process_raises :
    (∀ (b : BitFlip) (p : Population Bool) (pool : Option GenePool)
        (rng : Rng), p.individuals ≠ [] →
        b.toOperator.process (Container.pop p) pool rng =
          Except.error (PError.typeError unexpectedKwargMsg))
    ∧ (∀ (u : UniformInt) (p : Population Int) (pool : Option GenePool)
        (rng : Rng), p.individuals ≠ [] →
        u.toOperator.process (Container.pop p) pool rng =
          Except.error (PError.typeError unexpectedKwargMsg))
    ∧ (∀ (u : UniformFloat) (p : Population ℚ) (pool : Option GenePool)
        (rng : Rng), p.individuals ≠ [] →
        u.toOperator.process (Container.pop p) pool rng =
          Except.error (PError.typeError unexpectedKwargMsg))
    ∧ (∀ (nd : NormalDist) (p : Population ℚ) (pool : Option GenePool)
        (rng : Rng), p.individuals ≠ [] →
        nd.toOperator.process (Container.pop p) pool rng =
          Except.error (PError.typeError unexpectedKwargMsg))
    ∧ (∀ (b : BitFlip) (ind : Individual Bool) (rng : Rng),
        ∃ s, b.processPopulation (Population.mk [ind]) rng =
          Except.ok s) := by
  refine ⟨?_, ?_, ?_, ?_, ?_⟩
  · intro b p pool rng hp
    exact noPool_process_error b.toOperator b.processPopulation rfl rfl p hp
      pool rng
  · intro u p pool rng hp
    exact noPool_process_error u.toOperator u.processPopulation rfl rfl p hp
      pool rng
  · intro u p pool rng hp
    exact noPool_process_error u.toOperator u.processPopulation rfl rfl p hp
      pool rng
  · intro nd p pool rng hp
    exact noPool_process_error nd.toOperator nd.processPopulation rfl rfl p hp
      pool rng
  · intro b ind rng
    exact ⟨_, rfl⟩

/-- C4 witness: the raised `TypeError` and the direct-hook success at
concrete operators, populations and random state. -/
theorem claim4_witness :
    ((BitFlip.mk 1).toOperator.process
        (Container.pop (Population.mk [Individual.mk [true] []])) none
        rngHalf = Except.error (PError.typeError unexpectedKwargMsg))
    ∧ ((UniformInt.mk 1 0 1).toOperator.process
        (Container.pop (Population.mk [Individual.mk [0] []])) none
        rngHalf = Except.error (PError.typeError unexpectedKwargMsg))
    ∧ ((UniformFloat.mk 1 0 1).toOperator.process
        (Container.pop (Population.mk [Individual.mk [0] []])) none
        rngHalf = Except.error (PError.typeError unexpectedKwargMsg))
    ∧ ((NormalDist.mk 1 0 1 none).toOperator.process
        (Container.pop (Population.mk [Individual.mk [0] []])) none
        rngHalf = Except.error (PError.typeError unexpectedKwargMsg))
    ∧ (∃ s, (BitFlip.mk 1).processPopulation
        (Population.mk [Individual.mk [true] []]) rngHalf = Except.ok s) :=
  ⟨claim4_mutation_process_raises.1 (BitFlip.mk 1) _ none rngHalf
      (List.cons_ne_nil _ _),
    claim4_mutation_process_raises.2.1 (UniformInt.mk 1 0 1) _ none rngHalf
      (List.cons_ne_nil _ _),
    claim4_mutation_process_raises.2.2.1 (UniformFloat.mk 1 0 1) _ none
      rngHalf (List.cons_ne_nil _ _),
    claim4_mutation_process_raises.2.2.2.1 (NormalDist.mk 1 0 1 none) _ none
      rngHalf (List.cons_ne_nil _ _),
    claim4_mutation_process_raises.2.2.2.2 (BitFlip.mk 1)
      (Individual.mk [true] []) rngHalf⟩

/-- C6 counterexample: constructing each mutation operator with a
probability outside [0, 1] succeeds — no validation is performed, so
"fails validation at construction time" is false at `prob = 2`
(and `prob = -1/2`). -/
theorem claim6_counterexample :
    (BitFlip.init 2 = Except.ok (BitFlip.mk 2))
    ∧ (UniformInt.init 2 (-1) 1 = Except.ok (UniformInt.mk 2 (-1) 1))
    ∧ (UniformFloat.init (-(1 / 2)) (-1) 1 =
        Except.ok (UniformFloat.mk (-(1 / 2)) (-1) 1))
    ∧ (NormalDist.init 2 0 1 none = Except.ok (NormalDist.mk 2 0 1 none)) :=
  ⟨rfl, rfl, rfl, rfl⟩

/-- C6 (amended): no mutation-operator constructor validates its
probability; construction succeeds for every probability value
(including values below 0 and above 1) and merely stores the given
parameters. -/
theorem claim6_construction_never_validates :
    (∀ prob : ℚ, BitFlip.init prob = Except.ok (BitFlip.mk prob))
    ∧ (∀ (prob : ℚ) (lo hi : Int),
        UniformInt.init prob lo hi = Except.ok (UniformInt.mk prob lo hi))
    ∧ (∀ prob lo hi : ℚ,
        UniformFloat.init prob lo hi =
          Except.ok (UniformFloat.mk prob lo hi))
    ∧ (∀ (prob mu sigma : ℚ) (alpha : Option ℚ),
        NormalDist.init prob mu sigma alpha =
          Except.ok (NormalDist.mk prob mu sigma alpha)) :=
  ⟨fun _ => rfl, fun _ _ _ => rfl, fun _ _ _ => rfl, fun _ _ _ _ => rfl⟩

/-- C10: assigning a non-IterationType value to an Operator's
`iter_type` property raises the `TypeError` of the `isinstance` check,
while assigning an IterationType instance succeeds and stores it in
`_iter_type`. -/
theorem claim10_iter_type_setter {G : Type} (op : Operator G) :
    (∀ desc, op.setIterType (IterArg.other desc) =
        Except.error
          (PError.typeError ("Expected IterationType, got " ++ desc)))
    ∧ (∀ it, op.setIterType (IterArg.ofIter it) =
        Except.ok { op with iterType := it }) :=
  ⟨fun _ => rfl, fun _ => rfl⟩

/-- When every uniform draw lies at or below the flip probability, the
BitFlip gene loop negates every gene. -/
lemma bitFlipGenes_all (prob : ℚ) :
    ∀ (gs : List Bool) (rng : Rng), (∀ n, rng.floats n ≤ prob) →
      (bitFlipGenes prob gs rng).1 = gs.map (fun g => !g) := by
  intro gs
  induction gs with
  | nil => intro rng _; rfl
  | cons g gs ih =>
      intro rng h
      simp only [bitFlipGenes, Rng.nextFloat, List.map_cons]
      rw [if_pos (h rng.fi)]
      rw [ih { rng with fi := rng.fi + 1 } h]

/-- When every uniform draw lies strictly above the flip probability,
the BitFlip gene loop changes nothing. -/
lemma bitFlipGenes_none (prob : ℚ) :
    ∀ (gs : List Bool) (rng : Rng), (∀ n, ¬ rng.floats n ≤ prob) →
      (bitFlipGenes prob gs rng).1 = gs := by
  intro gs
  induction gs with
  | nil => intro rng _; rfl
  | cons g gs ih =>
      intro rng h
      simp only [bitFlipGenes, Rng.nextFloat]
      rw [if_neg (h rng.fi)]
      rw [ih { rng with fi := rng.fi + 1 } h]

/-- C7 counterexample: `np.random.random_sample` can return exactly 0,
and the code tests `sample <= prob`, so with `prob = 0.0` and a stream
whose draw is 0 the gene is flipped — the output differs from the
input, refuting "for every possible RNG stream ... identical". -/
theorem claim7_counterexample :
    ((BitFlip.mk 0).processPopulation
        (Population.mk [Individual.mk [true] []]) rngZero).map
        (fun s => s.out.individuals.map Individual.genes) =
      Except.ok [[false]] := rfl

/-- C7 (amended): with `prob = 1.0` BitFlip flips every gene for every
RNG stream (draws lie in [0,1), hence are at most 1 — zero draws
included); with `prob = 0.0` a gene flips exactly when its draw is
exactly 0, so the output genes equal the input genes for every RNG
stream whose draws are all strictly positive. -/
theorem claim7_bitflip_extremes (ind : Individual Bool) (rng : Rng) :
    ((∀ n, rng.floats n < 1) →
      ((BitFlip.mk 1).processPopulation (Population.mk [ind]) rng).map
          (fun s => s.out.individuals.map Individual.genes) =
        Except.ok [ind.genes.map (fun g => !g)])
    ∧ ((∀ n, 0 < rng.floats n) →
      ((BitFlip.mk 0).processPopulation (Population.mk [ind]) rng).map
          (fun s => s.out.individuals.map Individual.genes) =
        Except.ok [ind.genes]) := by
  constructor
  · intro hub
    show Except.ok [(bitFlipGenes 1 ind.genes rng).1] = _
    rw [bitFlipGenes_all 1 ind.genes rng (fun n => le_of_lt (hub n))]
  · intro hlb
    show Except.ok [(bitFlipGenes 0 ind.genes rng).1] = _
    rw [bitFlipGenes_none 0 ind.genes rng (fun n => not_le.mpr (hlb n))]

/-- C7 witness: the two extreme behaviors at a concrete individual and
a concrete stream of draws equal to 1/2. -/
theorem claim7_witness :
    (((BitFlip.mk 1).processPopulation
        (Population.mk [Individual.mk [true, false] []]) rngHalf).map
        (fun s => s.out.individuals.map Individual.genes) =
      Except.ok [[false, true]])
    ∧ (((BitFlip.mk 0).processPopulation
        (Population.mk [Individual.mk [true, false] []]) rngHalf).map
        (fun s => s.out.individuals.map Individual.genes) =
      Except.ok [[true, false]]) :=
  ⟨(claim7_bitflip_extremes (Individual.mk [true, false] []) rngHalf).1
      (fun _ => by show (1 : ℚ) / 2 < 1; norm_num),
    (claim7_bitflip_extremes (Individual.mk [true, false] []) rngHalf).2
      (fun _ => by show (0 : ℚ) < 1 / 2; norm_num)⟩

/-- C5 counterexample: `NormalDist` with `alpha` set reads
`hidden_genes[0]`, so on an individual with no hidden genes the call
raises `IndexError` instead of returning a Population. -/
theorem claim5_counterexample :
    (NormalDist.mk (1 / 10) 0 1 (some 2)).processPopulation
        (Population.mk [Individual.mk [0] []]) rngHalf =
      Except.error PError.indexError := rfl

/-- C5 (amended): for every single-individual batch, each mutation
operator's `_process_population` returns a new Population holding
exactly one individual built from a copy of the input, and the caller's
batch (the original individual's genes and hidden genes) is unchanged
after the call — with the proviso that `NormalDist` with `alpha` set
requires a non-zero `alpha` and at least one hidden gene; otherwise it
raises (`IndexError` / `ZeroDivisionError`) instead of returning. -/
theorem claim5_mutation_returns_copy :
    (∀ (b : BitFlip) (ind : Individual Bool) (rng : Rng),
      (b.processPopulation (Population.mk [ind]) rng).map
          (fun s => (s.post, s.out.individuals.length)) =
        Except.ok (Population.mk [ind], 1))
    ∧ (∀ (u : UniformInt) (ind : Individual Int) (rng : Rng),
      (u.processPopulation (Population.mk [ind]) rng).map
          (fun s => (s.post, s.out.individuals.length)) =
        Except.ok (Population.mk [ind], 1))
    ∧ (∀ (u : UniformFloat) (ind : Individual ℚ) (rng : Rng),
      (u.processPopulation (Population.mk [ind]) rng).map
          (fun s => (s.post, s.out.individuals.length)) =
        Except.ok (Population.mk [ind], 1))
    ∧ (∀ (nd : NormalDist) (ind : Individual ℚ) (rng : Rng),
      (nd.alpha = none
          ∨ (ind.hiddenGenes ≠ [] ∧ ∀ a, nd.alpha = some a → a ≠ 0)) →
      (nd.processPopulation (Population.mk [ind]) rng).map
          (fun s => (s.post, s.out.individuals.length)) =
        Except.ok (Population.mk [ind], 1)) := by
  refine ⟨fun b ind rng => rfl, fun u ind rng => rfl, fun u ind rng => rfl,
    ?_⟩
  intro nd ind rng h
  cases hα : nd.alpha with
  | none =>
      simp only [NormalDist.processPopulation, normalDistMutate, hα,
        Individual.copy, Except.map]
      rfl
  | some a =>
      rcases h with hnone | ⟨hne, hzero⟩
      · rw [hnone] at hα; cases hα
      · have ha : a ≠ 0 := hzero a hα
        cases hh : ind.hiddenGenes with
        | nil => exact absurd hh hne
        | cons s0 rest =>
            simp only [NormalDist.processPopulation, normalDistMutate, hα,
              Individual.copy, hh, if_neg ha, Except.map]
            rfl

/-- C5 witness: the frame property at concrete operators, individuals
and random state, including `NormalDist` with `alpha` set on an
individual that has a hidden gene. -/
theorem claim5_witness :
    (((BitFlip.mk (1 / 2)).processPopulation
        (Population.mk [Individual.mk [true] []]) rngHalf).map
        (fun s => (s.post, s.out.individuals.length)) =
      Except.ok (Population.mk [Individual.mk [true] []], 1))
    ∧ (((UniformInt.mk (1 / 2) 0 3).processPopulation
        (Population.mk [Individual.mk [5] []]) rngHalf).map
        (fun s => (s.post, s.out.individuals.length)) =
      Except.ok (Population.mk [Individual.mk [5] []], 1))
    ∧ (((UniformFloat.mk (1 / 2) 0 1).processPopulation
        (Population.mk [Individual.mk [0] []]) rngHalf).map
        (fun s => (s.post, s.out.individuals.length)) =
      Except.ok (Population.mk [Individual.mk [0] []], 1))
    ∧ (((NormalDist.mk (1 / 2) 0 1 (some 2)).processPopulation
        (Population.mk [Individual.mk [0] [1]]) rngHalf).map
        (fun s => (s.post, s.out.individuals.length)) =
      Except.ok (Population.mk [Individual.mk [0] [1]], 1)) :=
  ⟨claim5_mutation_returns_copy.1 (BitFlip.mk (1 / 2))
      (Individual.mk [true] []) rngHalf,
    claim5_mutation_returns_copy.2.1 (UniformInt.mk (1 / 2) 0 3)
      (Individual.mk [5] []) rngHalf,
    claim5_mutation_returns_copy.2.2.1 (UniformFloat.mk (1 / 2) 0 1)
      (Individual.mk [0] []) rngHalf,
    claim5_mutation_returns_copy.2.2.2 (NormalDist.mk (1 / 2) 0 1 (some 2))
      (Individual.mk [0] [1]) rngHalf
      (Or.inr ⟨List.cons_ne_nil _ _,
        fun a ha => by cases Option.some.inj ha; decide⟩)⟩

/-- A batch of uniform draws has the requested size. -/
lemma takeFloats_length :
    ∀ (n : Nat) (rng : Rng), ((takeFloats n rng).1).length = n := by
  intro n
  induction n with
  | zero => intro rng; rfl
  | succ n ih => intro rng; simp [takeFloats, ih]

/-- The i-th element of a batch of uniform draws is the stream value at
offset i from the current float counter. -/
lemma takeFloats_getD :
    ∀ (n : Nat) (rng : Rng) (i : Nat), i < n →
      ((takeFloats n rng).1).getD i 0 = rng.floats (rng.fi + i) := by
  intro n
  induction n with
  | zero => intro rng i hi; exact absurd hi (Nat.not_lt_zero i)
  | succ n ih =>
      intro rng i hi
      cases i with
      | zero => simp [takeFloats, Rng.nextFloat]
      | succ i =>
          simp only [takeFloats, Rng.nextFloat, List.getD_cons_succ]
          rw [ih { rng with fi := rng.fi + 1 } i (by omega)]
          show rng.floats (rng.fi + 1 + i) = rng.floats (rng.fi + (i + 1))
          congr 1
          omega

/-- Drawing uniform samples does not touch the randint stream. -/
lemma takeFloats_randints :
    ∀ (n : Nat) (rng : Rng), ((takeFloats n rng).2).randints = rng.randints := by
  intro n
  induction n with
  | zero => intro rng; rfl
  | succ n ih =>
      intro rng
      show ((takeFloats n { rng with fi := rng.fi + 1 }).2).randints = _
      rw [ih]

/-- A batch of randint draws has the requested size. -/
lemma takeRandints_length (lo hiEx : Int) :
    ∀ (n : Nat) (rng : Rng), ((takeRandints lo hiEx n rng).1).length = n := by
  intro n
  induction n with
  | zero => intro rng; rfl
  | succ n ih => intro rng; simp [takeRandints, ih]

/-- Every element of a batch of randint draws is a value of the randint
stream, so any property of the stream holds of each element. -/
lemma takeRandints_forall (lo hiEx : Int) (P : Int → Prop) :
    ∀ (n : Nat) (rng : Rng), (∀ m, P (rng.randints lo hiEx m)) →
      ∀ v ∈ (takeRandints lo hiEx n rng).1, P v := by
  intro n
  induction n with
  | zero => intro rng _ v hv; simp [takeRandints] at hv
  | succ n ih =>
      intro rng h v hv
      simp only [takeRandints, Rng.nextRandint, List.mem_cons] at hv
      rcases hv with h1 | h2
      · exact h1 ▸ h rng.ri
      · exact ih { rng with ri := rng.ri + 1 } h v h2

/-- The i-th entry of the hit mask is the Bernoulli test of the i-th
drawn sample. -/
lemma hitsMask_getD (prob : ℚ) :
    ∀ (us : List ℚ) (i : Nat), i < us.length →
      (hitsMask prob us).getD i false =
        (if us.getD i 0 ≤ prob then true else false) := by
  intro us
  induction us with
  | nil => intro i hi; simp at hi
  | cons u us ih =>
      intro i hi
      cases i with
      | zero => simp [hitsMask]
      | succ i =>
          simp only [hitsMask, List.map_cons, List.getD_cons_succ]
          exact ih i (by simpa using hi)

/-- The vectorized assignment preserves the gene count. -/
lemma assignHits_length {α : Type} :
    ∀ (gs : List α) (mask : List Bool) (vs : List α),
      (assignHits gs mask vs).length = gs.length := by
  intro gs
  induction gs with
  | nil => intro mask vs; simp [assignHits]
  | cons g gs ih =>
      intro mask vs
      cases mask with
      | nil => simp [assignHits]
      | cons b ms =>
          cases b with
          | false => simp [assignHits, ih]
          | true =>
              cases vs with
              | nil => simp [assignHits, ih]
              | cons v vr => simp [assignHits, ih]

/-- Positional behavior of the vectorized assignment: a position whose
mask entry is true receives some element of the replacement batch, and a
position whose mask entry is false keeps its input value. -/
lemma assignHits_getD {α : Type} (d : α) :
    ∀ (gs : List α) (mask : List Bool) (vs : List α),
      mask.length = gs.length → vs.length = mask.count true →
      ∀ i, i < gs.length →
        ((mask.getD i false = true →
            (assignHits gs mask vs).getD i d ∈ vs)
        ∧ (mask.getD i false = false →
            (assignHits gs mask vs).getD i d = gs.getD i d)) := by
  intro gs
  induction gs with
  | nil => intro mask vs _ _ i hi; simp at hi
  | cons g gs ih =>
      intro mask vs hm hv i hi
      cases mask with
      | nil => simp at hm
      | cons b ms =>
          have hm' : ms.length = gs.length := by simpa using hm
          cases b with
          | true =>
              have hv' : vs.length = ms.count true + 1 := by
                simpa [List.count_cons] using hv
              cases vs with
              | nil => simp at hv'
              | cons v vr =>
                  have hvr : vr.length = ms.count true := by simpa using hv'
                  cases i with
                  | zero =>
                      constructor
                      · intro _
                        show v ∈ v :: vr
                        exact List.mem_cons_self v vr
                      · intro habs; simp at habs
                  | succ i =>
                      have hi' : i < gs.length := by simpa using hi
                      have hrec := ih ms vr hm' hvr i hi'
                      constructor
                      · intro hsel
                        have hmem := hrec.1 (by simpa using hsel)
                        show (assignHits gs ms vr).getD i d ∈ v :: vr
                        exact List.mem_cons_of_mem v hmem
                      · intro hns
                        have heq := hrec.2 (by simpa using hns)
                        show (assignHits gs ms vr).getD i d = gs.getD i d
                        exact heq
          | false =>
              have hvs : vs.length = ms.count true := by
                simpa [List.count_cons] using hv
              cases i with
              | zero =>
                  constructor
                  · intro habs; simp at habs
                  · intro _
                    rfl
              | succ i =>
                  have hi' : i < gs.length := by simpa using hi
                  have hrec := ih ms vs hm' hvs i hi'
                  constructor
                  · intro hsel
                    have hmem := hrec.1 (by simpa using hsel)
                    show (assignHits gs ms vs).getD i d ∈ vs
                    exact hmem
                  · intro hns
                    have heq := hrec.2 (by simpa using hns)
                    show (assignHits gs ms vs).getD i d = gs.getD i d
                    exact heq

/-- Positional specification of the `UniformInt` gene update: under the
`np.random.randint(lowest, highest+1)` contract (each draw lies in
[lowest, highest]), the output has the input's length, every position
whose Bernoulli draw is at most `prob` holds a value in
[lowest, highest], and every other position holds its input value. -/
lemma uniformIntGenes_spec (prob : ℚ) (lo hi : Int) (gs : List Int)
    (rng : Rng)
    (hr : ∀ m, lo ≤ rng.randints lo (hi + 1) m
        ∧ rng.randints lo (hi + 1) m ≤ hi) :
    ((uniformIntGenes prob lo hi gs rng).1.length = gs.length)
    ∧ (∀ i, i < gs.length →
        ((rng.floats (rng.fi + i) ≤ prob →
            lo ≤ (uniformIntGenes prob lo hi gs rng).1.getD i 0
            ∧ (uniformIntGenes prob lo hi gs rng).1.getD i 0 ≤ hi)
        ∧ (¬ rng.floats (rng.fi + i) ≤ prob →
            (uniformIntGenes prob lo hi gs rng).1.getD i 0 = gs.getD i 0))) := by
  have hus_len : ((takeFloats gs.length rng).1).length = gs.length :=
    takeFloats_length gs.length rng
  have hmask_len :
      (hitsMask prob (takeFloats gs.length rng).1).length = gs.length := by
    simp [hitsMask, hus_len]
  have hvs_len := takeRandints_length lo (hi + 1)
    ((hitsMask prob (takeFloats gs.length rng).1).count true)
    (takeFloats gs.length rng).2
  have hres : (uniformIntGenes prob lo hi gs rng).1 =
      assignHits gs (hitsMask prob (takeFloats gs.length rng).1)
        ((takeRandints lo (hi + 1)
          ((hitsMask prob (takeFloats gs.length rng).1).count true)
          (takeFloats gs.length rng).2).1) := rfl
  constructor
  · rw [hres, assignHits_length]
  · intro i hi2
    have hspec := assignHits_getD 0 gs
      (hitsMask prob (takeFloats gs.length rng).1)
      ((takeRandints lo (hi + 1)
        ((hitsMask prob (takeFloats gs.length rng).1).count true)
        (takeFloats gs.length rng).2).1)
      hmask_len hvs_len i hi2
    have hmaskd :
        (hitsMask prob (takeFloats gs.length rng).1).getD i false =
          (if rng.floats (rng.fi + i) ≤ prob then true else false) := by
      rw [hitsMask_getD prob _ i (by rw [hus_len]; exact hi2)]
      rw [takeFloats_getD gs.length rng i hi2]
    have hbounds : ∀ v ∈ (takeRandints lo (hi + 1)
        ((hitsMask prob (takeFloats gs.length rng).1).count true)
        (takeFloats gs.length rng).2).1, lo ≤ v ∧ v ≤ hi := by
      apply takeRandints_forall
      intro m
      rw [show ((takeFloats gs.length rng).2).randints = rng.randints from
        takeFloats_randints gs.length rng]
      exact hr m
    constructor
    · intro hsel
      have htrue :
          (hitsMask prob (takeFloats gs.length rng).1).getD i false = true := by
        rw [hmaskd, if_pos hsel]
      rw [hres]
      exact hbounds _ (hspec.1 htrue)
    · intro hns
      have hfalse :
          (hitsMask prob (takeFloats gs.length rng).1).getD i false = false := by
        rw [hmaskd, if_neg hns]
      rw [hres]
      exact hspec.2 hfalse

/-- C8: for every individual processed by `UniformInt`, under the
`np.random.randint(lowest, highest+1)` contract every gene selected by
the Bernoulli trial (its uniform draw is at most `prob`) ends up with an
integer in the inclusive range [lowest, highest], and every gene not
selected keeps exactly its input value; the returned individual's genes
are the computed update of the input's genes. -/
theorem claim8_uniformint_mutation (u : UniformInt) (ind : Individual Int)
    (rng : Rng)
    (hr : ∀ m, u.lowest ≤ rng.randints u.lowest (u.highest + 1) m
        ∧ rng.randints u.lowest (u.highest + 1) m ≤ u.highest) :
    ((u.processPopulation (Population.mk [ind]) rng).map
        (fun s => s.out.individuals.map Individual.genes) =
      Except.ok [(uniformIntGenes u.prob u.lowest u.highest ind.genes rng).1])
    ∧ ((uniformIntGenes u.prob u.lowest u.highest ind.genes rng).1.length =
        ind.genes.length)
    ∧ (∀ i, i < ind.genes.length →
        ((rng.floats (rng.fi + i) ≤ u.prob →
            u.lowest ≤ (uniformIntGenes u.prob u.lowest u.highest
              ind.genes rng).1.getD i 0
            ∧ (uniformIntGenes u.prob u.lowest u.highest
              ind.genes rng).1.getD i 0 ≤ u.highest)
        ∧ (¬ rng.floats (rng.fi + i) ≤ u.prob →
            (uniformIntGenes u.prob u.lowest u.highest
              ind.genes rng).1.getD i 0 = ind.genes.getD i 0))) := by
  have h := uniformIntGenes_spec u.prob u.lowest u.highest ind.genes rng hr
  exact ⟨rfl, h.1, h.2⟩

/-- C8 witness: the bounds and frame behavior at a concrete operator,
individual and random state. -/
theorem claim8_witness :
    (((UniformInt.mk (1 / 2) 0 3).processPopulation
        (Population.mk [Individual.mk [5, 7] []]) rngHalf).map
        (fun s => s.out.individuals.map Individual.genes) =
      Except.ok [(uniformIntGenes (1 / 2) 0 3 [5, 7] rngHalf).1])
    ∧ ((uniformIntGenes (1 / 2) 0 3 [5, 7] rngHalf).1.length = 2)
    ∧ (∀ i, i < 2 →
        ((rngHalf.floats (rngHalf.fi + i) ≤ 1 / 2 →
            0 ≤ (uniformIntGenes (1 / 2) 0 3 [5, 7] rngHalf).1.getD i 0
            ∧ (uniformIntGenes (1 / 2) 0 3 [5, 7] rngHalf).1.getD i 0 ≤ 3)
        ∧ (¬ rngHalf.floats (rngHalf.fi + i) ≤ 1 / 2 →
            (uniformIntGenes (1 / 2) 0 3 [5, 7] rngHalf).1.getD i 0 =
              ([5, 7] : List Int).getD i 0))) :=
  claim8_uniformint_mutation (UniformInt.mk (1 / 2) 0 3)
    (Individual.mk [5, 7] []) rngHalf
    (fun _ => ⟨le_refl 0, by show (0 : Int) ≤ 3; decide⟩)

/-- With `alpha` set to a non-zero value and at least one hidden gene,
one `NormalDist` mutation step succeeds and multiplies the stored step
size (hidden gene 0) by one factor equal to `alpha` or `1/alpha`,
leaving the remaining hidden genes unchanged. -/
lemma normalDistMutate_hidden (p : NormalDist) (a : ℚ)
    (hα : p.alpha = some a) (ha : a ≠ 0) (ind : Individual ℚ)
    (s0 : ℚ) (rest : List ℚ) (hh : ind.hiddenGenes = s0 :: rest)
    (rng : Rng) :
    ∃ (i2 : Individual ℚ) (r2 : Rng) (f : ℚ),
      normalDistMutate p ind rng = Except.ok (i2, r2)
      ∧ (f = a ∨ f = 1 / a) ∧ i2.hiddenGenes = s0 * f :: rest := by
  simp only [normalDistMutate, hα, hh, if_neg ha, Rng.nextChoice]
  refine ⟨_, _, if rng.choices rng.ci = true then a else 1 / a, rfl, ?_, rfl⟩
  by_cases hb : rng.choices rng.ci = true
  · rw [if_pos hb]; exact Or.inl rfl
  · rw [if_neg hb]; exact Or.inr rfl

/-- C9 (amended): `NormalDist` with `alpha=None` leaves the individual's
hidden genes unchanged; with `alpha` set to a non-zero value, on an
individual with at least one hidden gene, after N applications the
stored step size (hidden gene 0) is the initial step size multiplied by
a product of N factors each in the set containing `alpha` and
`1/alpha`. -/
theorem claim9_normaldist_stepsize :
    (∀ (p : NormalDist) (ind : Individual ℚ) (rng : Rng),
      p.alpha = none →
      (p.processPopulation (Population.mk [ind]) rng).map
          (fun s => s.out.individuals.map Individual.hiddenGenes) =
        Except.ok [ind.hiddenGenes])
    ∧ (∀ (p : NormalDist) (a : ℚ) (N : Nat) (ind : Individual ℚ)
        (rng : Rng), p.alpha = some a → a ≠ 0 → ind.hiddenGenes ≠ [] →
        ∃ fs : List ℚ, fs.length = N ∧ (∀ f ∈ fs, f = a ∨ f = 1 / a)
          ∧ (normalDistIterate p N ind rng).map
              (fun x => x.1.hiddenGenes.headI) =
            Except.ok (ind.hiddenGenes.headI * fs.prod)) := by
  constructor
  · intro p ind rng hα
    simp only [NormalDist.processPopulation, normalDistMutate, hα,
      Individual.copy, Except.map]
    rfl
  · intro p a N
    induction N with
    | zero =>
        intro ind rng hα ha hne
        exact ⟨[], rfl, by simp,
          by simp [normalDistIterate, Except.map]⟩
    | succ N ih =>
        intro ind rng hα ha hne
        cases hh : ind.hiddenGenes with
        | nil => exact absurd hh hne
        | cons s0 rest =>
            obtain ⟨i2, r2, f, hstep, hf, hhid⟩ :=
              normalDistMutate_hidden p a hα ha ind s0 rest hh rng
            obtain ⟨fs, hlen, hmem, heq⟩ := ih i2 r2 hα ha
              (by rw [hhid]; exact List.cons_ne_nil _ _)
            refine ⟨f :: fs, by simp [hlen], ?_, ?_⟩
            · intro g hg
              rcases List.mem_cons.mp hg with h1 | h2
              · exact h1 ▸ hf
              · exact hmem g h2
            · rw [show normalDistIterate p (N + 1) ind rng =
                normalDistIterate p N i2 r2 from by
                  simp [normalDistIterate, hstep]]
              rw [heq]
              congr 1
              simp only [hhid, hh, List.headI, List.prod_cons]
              ring

/-- C9 counterexample: starting from a stored step size of 2 with
`alpha = 3`, one application leaves step size 6, which is neither 3 nor
1/3 — so "the stored step size is the product of N factors each in
the set containing alpha and 1/alpha" fails unless the initial step size
is also a factor. -/
theorem claim9_counterexample :
    ((normalDistIterate (NormalDist.mk (1 / 10) 0 1 (some 3)) 1
        (Individual.mk [] [2]) rngHalf).map
        (fun x => x.1.hiddenGenes.headI) = Except.ok 6)
    ∧ (6 : ℚ) ≠ 3 ∧ (6 : ℚ) ≠ 1 / 3 := by
  refine ⟨?_, by norm_num, by norm_num⟩
  norm_num [normalDistIterate, normalDistMutate, Rng.nextChoice, rngHalf,
    normalDistGenes, takeFloats, takeNormals, hitsMask, addHits,
    Except.map, List.headI]

/-- C9 witness: both halves at concrete operators, an individual whose
stored step size is 2, and a concrete random state. -/
theorem claim9_witness :
    (((NormalDist.mk (1 / 10) 0 1 none).processPopulation
        (Population.mk [Individual.mk [] [2]]) rngHalf).map
        (fun s => s.out.individuals.map Individual.hiddenGenes) =
      Except.ok [[2]])
    ∧ (∃ fs : List ℚ, fs.length = 1 ∧ (∀ f ∈ fs, f = 3 ∨ f = 1 / 3)
        ∧ (normalDistIterate (NormalDist.mk (1 / 10) 0 1 (some 3)) 1
            (Individual.mk [] [2]) rngHalf).map
            (fun x => x.1.hiddenGenes.headI) =
          Except.ok ((2 : ℚ) * fs.prod)) :=
  ⟨claim9_normaldist_stepsize.1 (NormalDist.mk (1 / 10) 0 1 none)
      (Individual.mk [] [2]) rngHalf rfl,
    claim9_normaldist_stepsize.2 (NormalDist.mk (1 / 10) 0 1 (some 3)) 3 1
      (Individual.mk [] [2]) rngHalf rfl (by norm_num)
      (List.cons_ne_nil _ _)⟩

end Peal
